import Mathlib

/-! Testing-K6: the load-test script `testing.js`.

The script is a configuration for a load-testing host tool.  This file embeds

* the `options` object (scenarios and thresholds) exactly as the script
  writes it, duration strings included;
* the exported functions `constantLoadScenario`, `rampUpScenario`,
  `stressTestScenario` and `handleSummary`;
* the parts of the host tool the script relies on and the specification
  describes (duration values, executor strategies, threshold evaluation),
  each marked as modelled from the specification.

Times are rational numbers of seconds.
-/

namespace TestingK6

/-! ## The configuration literals of `testing.js` -/

/-- Base URL of the system under test (`const BASE_URL`). -/
def BASE_URL : String := "https://jsonplaceholder.typicode.com"

/-- One entry of a `stages` array, as written: `{ duration: '30s', target: 20 }`. -/
structure StageLit where
  duration : String
  target : Int
  deriving DecidableEq, Repr

/-- One entry of `options.scenarios`, as written.  A field the script does not
write for a scenario is `none`. -/
structure ScenarioLit where
  executor : String
  vus : Option Int := none
  duration : Option String := none
  startVUs : Option Int := none
  preAllocatedVUs : Option Int := none
  maxVUs : Option Int := none
  timeUnit : Option String := none
  stages : Option (List StageLit) := none
  exec : String
  startTime : String
  deriving DecidableEq, Repr

/-- Scenario 1 of the script: `constant_load`. -/
def constant_load : ScenarioLit :=
  { executor := "constant-vus"
    vus := some 50
    duration := some "1m"
    exec := "constantLoadScenario"
    startTime := "0s" }

/-- Scenario 2 of the script: `ramp_up`. -/
def ramp_up : ScenarioLit :=
  { executor := "ramping-vus"
    startVUs := some 0
    stages := some [⟨"30s", 20⟩, ⟨"30s", 50⟩, ⟨"30s", 0⟩]
    exec := "rampUpScenario"
    startTime := "1m" }

/-- Scenario 3 of the script: `stress_test`. -/
def stress_test : ScenarioLit :=
  { executor := "ramping-arrival-rate"
    preAllocatedVUs := some 50
    timeUnit := some "1s"
    stages := some [⟨"30s", 10⟩, ⟨"1m", 50⟩, ⟨"30s", 0⟩]
    exec := "stressTestScenario"
    startTime := "2m30s" }

/-- The `options` object: the scenario map in source order and the thresholds. -/
structure Options where
  scenarios : List (String × ScenarioLit)
  thresholds : List (String × List String)

/-- The exported constant `options` of the script. -/
def options : Options :=
  { scenarios :=
      [("constant_load", constant_load), ("ramp_up", ramp_up), ("stress_test", stress_test)]
    thresholds :=
      [("http_req_duration", ["p(95)<2000"]), ("http_req_failed", ["rate<0.1"])] }

/-! ## Duration strings -/

/-- Milliseconds of one unit suffix of a duration string. -/
def unitMillis : List Char → Option Nat
  | ['m', 's'] => some 1
  | ['s'] => some 1000
  | ['m'] => some 60000
  | ['h'] => some 3600000
  | ['d'] => some 86400000
  | _ => none

/-- Reader state of a duration string: the milliseconds of the segments
already closed, the digits of the open segment, and its unit letters. -/
structure DurState where
  total : Nat
  num : Option Nat
  unit : List Char

/-- Close the open segment: it needs digits and a known unit. -/
def closeSegment (st : DurState) : Option Nat :=
  match st.num with
  | none => none
  | some n => (unitMillis st.unit).map (fun u => st.total + n * u)

/-- Read the characters of a duration string such as `2m30s`. -/
def parseDurationAux : List Char → DurState → Option Nat
  | [], st => closeSegment st
  | c :: cs, st =>
    if c.isDigit then
      if st.unit = [] then
        parseDurationAux cs { st with num := some (st.num.getD 0 * 10 + (c.toNat - 48)) }
      else
        match closeSegment st with
        | none => none
        | some t => parseDurationAux cs ⟨t, some (c.toNat - 48), []⟩
    else if c.isAlpha then
      match st.num with
      | none => none
      | some _ => parseDurationAux cs { st with unit := st.unit ++ [c] }
    else none

/-- Modelled from the spec: the `Duration` values of the data model.  The host
tool reads the duration strings of the script (`'30s'`, `'1m'`, `'2m30s'`); its
reader is not part of the repository.  A duration string is a sequence of
segments, each a decimal number followed by one of the units `d`, `h`, `m`,
`s`, `ms`; the value is the sum of the segments, here in milliseconds. -/
def parseDuration (s : String) : Option Nat :=
  parseDurationAux s.toList ⟨0, none, []⟩

/-- A duration string in seconds. -/
def seconds (s : String) : Option ℚ :=
  (parseDuration s).map (fun ms => (ms : ℚ) / 1000)

/-! ## Executor configurations -/

/-- Modelled from the spec: `Stage`, a linear ramp segment
`{duration: Duration, target: number}`, with the duration in seconds. -/
structure Stage where
  duration : ℚ
  target : ℚ

/-- The invariant the data model states for a `Stage`: duration > 0 and
target ≥ 0. -/
def Stage.Valid (s : Stage) : Prop := 0 < s.duration ∧ 0 ≤ s.target

/-- Modelled from the spec: `ExecutorConfig`, the tagged variant over the three
executor strategies. -/
inductive ExecutorConfig where
  | ConstantConcurrency (count : ℚ) (duration : ℚ)
  | RampingConcurrency (startCount : ℚ) (stages : List Stage)
  | RampingArrivalRate (preAllocated : ℚ) (timeUnit : ℚ) (stages : List Stage)

/-- A stage literal with its duration string read. -/
def resolveStage (s : StageLit) : Option Stage :=
  (seconds s.duration).map (fun d => ⟨d, (s.target : ℚ)⟩)

/-- A `stages` array with every duration string read. -/
def resolveStages : List StageLit → Option (List Stage)
  | [] => some []
  | s :: rest =>
    match resolveStage s, resolveStages rest with
    | some st, some l => some (st :: l)
    | _, _ => none

/-- The executor configuration a scenario literal declares, chosen by its
`executor` string; `none` when a field the executor needs is not written or a
duration string cannot be read. -/
def executorConfig (sc : ScenarioLit) : Option ExecutorConfig :=
  if sc.executor = "constant-vus" then
    match sc.vus, sc.duration.bind seconds with
    | some n, some d => some (.ConstantConcurrency (n : ℚ) d)
    | _, _ => none
  else if sc.executor = "ramping-vus" then
    match sc.startVUs, sc.stages.bind resolveStages with
    | some n, some l => some (.RampingConcurrency (n : ℚ) l)
    | _, _ => none
  else if sc.executor = "ramping-arrival-rate" then
    match sc.preAllocatedVUs, sc.timeUnit.bind seconds, sc.stages.bind resolveStages with
    | some n, some u, some l => some (.RampingArrivalRate (n : ℚ) u l)
    | _, _, _ => none
  else none

/-- Sum of the stage durations of a stage list. -/
def stagesDuration (l : List Stage) : ℚ := (l.map Stage.duration).sum

/-- Modelled from the spec: the ramping target (section 4.1).  The target at
time `t` is linearly interpolated between consecutive stage boundaries using
cumulative stage durations: `start` is the cumulative duration of the stages
already passed and `prev` the value at that boundary (`startCount` before the
first one).  A stage whose end `t` has reached is passed, so a zero-duration
stage is a jump applied at once; past the last boundary the value stays at the
last target. -/
def rampFrom (start prev : ℚ) : List Stage → ℚ → ℚ
  | [], _ => prev
  | s :: rest, t =>
    if t < start + s.duration then
      prev + (s.target - prev) * (t - start) / s.duration
    else rampFrom (start + s.duration) s.target rest t

/-- Modelled from the spec: the length of an executor's timeline, the duration
of a constant executor and the sum of the stage durations of a ramping one. -/
def ExecutorConfig.total : ExecutorConfig → ℚ
  | .ConstantConcurrency _ duration => duration
  | .RampingConcurrency _ stages => stagesDuration stages
  | .RampingArrivalRate _ _ stages => stagesDuration stages

/-- Modelled from the spec: the instantaneous target of an executor strategy at
elapsed time `t` (section 4.1): `count` for the constant strategy, the
interpolated worker count for ramping concurrency, and the interpolated number
of iteration starts per `timeUnit` for ramping arrival rate, which has no start
value in its configuration and ramps from 0. -/
def ExecutorConfig.target : ExecutorConfig → ℚ → ℚ
  | .ConstantConcurrency count _, _ => count
  | .RampingConcurrency startCount stages, t => rampFrom 0 startCount stages t
  | .RampingArrivalRate _ _ stages, t => rampFrom 0 0 stages t

/-- Modelled from the spec: the `done` flag of an executor strategy (section
4.1): the constant strategy is done at `t ≥ duration`, a ramping strategy when
`t` exceeds the sum of all stage durations. -/
def ExecutorConfig.done : ExecutorConfig → ℚ → Bool
  | .ConstantConcurrency _ duration, t => decide (duration ≤ t)
  | .RampingConcurrency _ stages, t => decide (stagesDuration stages < t)
  | .RampingArrivalRate _ _ stages, t => decide (stagesDuration stages < t)

/-- Modelled from the spec: the configuration errors of a stage list
(sections 4.1 and 7). -/
inductive ConfigurationError where
  | emptyStages
  | negativeDuration
  | negativeTarget
  deriving DecidableEq, Repr

/-- Modelled from the spec: the check of a stage list before run start
(section 4.1): an empty list, a negative duration or a negative target is a
configuration error. -/
def validateStages (l : List Stage) : Except ConfigurationError Unit :=
  if l.isEmpty then .error .emptyStages
  else if l.any (fun s => decide (s.duration < 0)) then .error .negativeDuration
  else if l.any (fun s => decide (s.target < 0)) then .error .negativeTarget
  else .ok ()

/-! ## Scenario windows -/

/-- Start offset of a scenario in seconds (`startTime`). -/
def startOffset (sc : ScenarioLit) : Option ℚ := seconds sc.startTime

/-- Length of a scenario's timeline in seconds. -/
def scenarioDuration (sc : ScenarioLit) : Option ℚ :=
  (executorConfig sc).map ExecutorConfig.total

/-- The active window `[start, end)` of a scenario on the run clock. -/
def window (sc : ScenarioLit) : Option (ℚ × ℚ) :=
  match startOffset sc, scenarioDuration sc with
  | some s, some d => some (s, s + d)
  | _, _ => none

/-- End of the last scenario window: the length of the whole run timeline. -/
def timelineEnd : List (String × ScenarioLit) → Option ℚ
  | [] => some 0
  | p :: rest =>
    match window p.2, timelineEnd rest with
    | some w, some e => some (max w.2 e)
    | _, _ => none

/-- Whether instant `t` of the run clock lies in the active window of a
scenario. -/
def activeAt (sc : ScenarioLit) (t : ℚ) : Bool :=
  match window sc with
  | some w => decide (w.1 ≤ t ∧ t < w.2)
  | none => false

/-! ## The workload functions -/

/-- What `r.json()` returns, as far as the checks of the script look at it:
whether the value has a `length` and an `id` that are not `undefined`. -/
inductive JsonValue where
  | null
  | array (length : Nat)
  | string (length : Nat)
  | object (hasLength hasId : Bool)
  | scalar
  deriving DecidableEq, Repr

/-- A response of the HTTP client, as far as the checks of the script look at
it: `r.status`, `r.timings.duration` in milliseconds, and `r.json()`, which is
`none` when the call throws (a null body or a body that is not JSON). -/
structure Response where
  status : Int
  duration : ℚ
  json : Option JsonValue

/-- What an iteration meets outside the script: the value `Math.random()`
returns and the response the HTTP client gives to a request (method, URL). -/
structure Env where
  random : ℚ
  http : String → String → Response

/-- The expression `v.id !== undefined`; `none` when it throws, which reading a
property of `null` does. -/
def idDefined : JsonValue → Option Bool
  | .null => none
  | .array _ => some false
  | .string _ => some false
  | .object _ hasId => some hasId
  | .scalar => some false

/-- The expression `v.length !== undefined`; `none` when it throws. -/
def lengthDefined : JsonValue → Option Bool
  | .null => none
  | .array _ => some true
  | .string _ => some true
  | .object hasLength _ => some hasLength
  | .scalar => some false

/-- The predicate `(r) => r.json().id !== undefined` of the checks
`has user data` and `post created`; `none` when it throws. -/
def hasId (r : Response) : Option Bool := r.json.bind idDefined

/-- The predicate
`(r) => r.json().length !== undefined || r.json().id !== undefined` of the check
`has valid data`; `none` when it throws. -/
def hasValidData (r : Response) : Option Bool :=
  match r.json.bind lengthDefined with
  | none => none
  | some true => some true
  | some false => r.json.bind idDefined

/-- What one iteration of a workload function does, in order.  A `check` call
that completes records the outcome of each of its predicates; `throw` is the
exception of the named predicate, which nothing in the script catches. -/
inductive Action where
  | get (url : String)
  | post (url : String) (body : String) (contentType : String)
  | batch (requests : List (String × String))
  | check (results : List (String × Bool))
  | throw (predicate : String)
  | sleep (secs : ℚ)
  deriving DecidableEq

/-- The predicates of one `check` call evaluated in order on a response: the
outcomes, or the name of the first predicate that throws. -/
def runCheck : List (String × (Response → Option Bool)) → Response →
    Except String (List (String × Bool))
  | [], _ => .ok []
  | (name, pred) :: rest, r =>
    match pred r with
    | none => .error name
    | some b =>
      match runCheck rest r with
      | .ok results => .ok ((name, b) :: results)
      | .error e => .error e

/-- A `check` call followed by the rest of the function body: when a predicate
throws, the iteration ends there and the rest does not run. -/
def checkCall (preds : List (String × (Response → Option Bool))) (r : Response)
    (rest : List Action) : List Action :=
  match runCheck preds r with
  | .ok results => .check results :: rest
  | .error name => [.throw name]

/-- The loop `responses.forEach((response, index) => { check(response, ...) })`
followed by the rest of the function body. -/
def forEachCheck (preds : List (String × (Response → Option Bool))) :
    List Response → List Action → List Action
  | [], rest => rest
  | r :: rs, rest => checkCall preds r (forEachCheck preds rs rest)

/-- The user id `constantLoadScenario` requests, for the value `r` that
`Math.random()` returned: `Math.floor(r * 10) + 1`. -/
def userId (r : ℚ) : ℤ := ⌊r * 10⌋ + 1

/-- The checks of `constantLoadScenario`. -/
def constantLoadChecks : List (String × (Response → Option Bool)) :=
  [ ("status is 200", fun r => some (decide (r.status = 200))),
    ("response time < 500ms", fun r => some (decide (r.duration < 500))),
    ("has user data", hasId) ]

/-- The exported function `constantLoadScenario`. -/
def constantLoadScenario (env : Env) : List Action :=
  let url := BASE_URL ++ "/users/" ++ toString (userId env.random)
  .get url :: checkCall constantLoadChecks (env.http "GET" url) [.sleep 1]

/-- The checks of `rampUpScenario`. -/
def rampUpChecks : List (String × (Response → Option Bool)) :=
  [ ("status is 201", fun r => some (decide (r.status = 201))),
    ("response time < 1s", fun r => some (decide (r.duration < 1000))),
    ("post created", hasId) ]

/-- The exported function `rampUpScenario`. -/
def rampUpScenario (env : Env) : List Action :=
  let url := BASE_URL ++ "/posts"
  .post url
      "\x7b\"title\":\"Test Post Load\",\"body\":\"This is a test post for load testing\",\"userId\":1\x7d"
      "application/json"
    :: checkCall rampUpChecks (env.http "POST" url) [.sleep 1]

/-- The three requests of the `http.batch` call of `stressTestScenario`. -/
def stressBatch : List (String × String) :=
  [ ("GET", BASE_URL ++ "/users/1"),
    ("GET", BASE_URL ++ "/posts/1"),
    ("GET", BASE_URL ++ "/comments?postId=1") ]

/-- The checks of `stressTestScenario`, made on every response of the batch. -/
def stressChecks : List (String × (Response → Option Bool)) :=
  [ ("status is 200", fun r => some (decide (r.status = 200))),
    ("response time < 2s", fun r => some (decide (r.duration < 2000))),
    ("has valid data", hasValidData) ]

/-- The exported function `stressTestScenario`: the batch, one `check` call for
each response in order, then `sleep(2)`, which is reached only when no
predicate throws. -/
def stressTestScenario (env : Env) : List Action :=
  .batch stressBatch ::
    forEachCheck stressChecks (stressBatch.map (fun q => env.http q.1 q.2)) [.sleep 2]

/-- The workload functions the script exports, by name. -/
def exportedWorkloads : List (String × (Env → List Action)) :=
  [ ("constantLoadScenario", constantLoadScenario),
    ("rampUpScenario", rampUpScenario),
    ("stressTestScenario", stressTestScenario) ]

/-- Every name the script exports. -/
def exportedNames : List String :=
  "options" :: (exportedWorkloads.map Prod.fst ++ ["handleSummary"])

/-- Seconds an iteration spends in `sleep`: a lower bound of its length, since
requests and checks take no negative time. -/
def minIterationSeconds : List Action → ℚ
  | [] => 0
  | .sleep s :: rest => s + minIterationSeconds rest
  | _ :: rest => minIterationSeconds rest

/-- Largest stage target of a stage list. -/
def peakTarget : List Stage → ℚ
  | [] => 0
  | s :: rest => max s.target (peakTarget rest)

/-- Iterations in flight at once when iterations start at `rate` per `timeUnit`
seconds and each lasts `len` seconds: arrival rate times time in flight. -/
def inFlight (rate timeUnit len : ℚ) : ℚ := rate / timeUnit * len

/-- Modelled from the spec: rate-paced arrival (section 4.2, step 3), new
iterations started at the computed rate: at an even pace of `rate` starts per
`timeUnit` seconds, iteration `i` starts at `i * timeUnit / rate`. -/
def startInstant (rate timeUnit : ℚ) (i : ℕ) : ℚ := (i : ℚ) * timeUnit / rate

/-- How many of the first `n` evenly paced iterations are in flight at instant
`t` when each lasts `len` seconds. -/
def inFlightAt (rate timeUnit len t : ℚ) (n : ℕ) : ℕ :=
  ((List.range n).filter (fun i =>
    decide (startInstant rate timeUnit i ≤ t ∧ t < startInstant rate timeUnit i + len))).length

/-! ## The summary handler -/

/-- The options object `handleSummary` passes to `textSummary`. -/
structure SummaryOptions where
  indent : String
  enableColors : Bool
  deriving DecidableEq, Repr

/-- The exported function `handleSummary`.  The two renderers are imported from
outside the repository and are parameters; each returns its output and the
summary object as it leaves it, so that a write to the object is visible.  The
object literal evaluates `htmlReport(data)` first, then
`textSummary(data, { indent: " ", enableColors: true })`. -/
def handleSummary {D R : Type} (htmlReport : D → R × D)
    (textSummary : D → SummaryOptions → R × D) (data : D) : List (String × R) × D :=
  let h := htmlReport data
  let t := textSummary h.2 ⟨" ", true⟩
  ([("summary.html", h.1), ("summary.txt", t.1)], t.2)

/-! ## Thresholds -/

/-- Comparison operator of a threshold expression. -/
inductive Cmp where
  | lt
  | le
  | gt
  | ge
  deriving DecidableEq, Repr

/-- A threshold expression read: the aggregate it names, the comparison and the
bound as a decimal number `mantissa / 10 ^ decimals`. -/
structure ThresholdExpr where
  aggregate : String
  cmp : Cmp
  mantissa : Nat
  decimals : Nat
  deriving DecidableEq, Repr

/-- Value of a run of decimal digits. -/
def readDigits (cs : List Char) : Nat :=
  cs.foldl (fun n c => n * 10 + (c.toNat - 48)) 0

/-- Read a decimal number with an optional fraction part. -/
def readDecimal (cs : List Char) : Option (Nat × Nat) :=
  let ip := cs.takeWhile Char.isDigit
  match cs.dropWhile Char.isDigit with
  | [] => if ip = [] then none else some (readDigits ip, 0)
  | '.' :: fs =>
    if ip ≠ [] ∧ fs ≠ [] ∧ fs.all Char.isDigit = true then
      some (readDigits (ip ++ fs), fs.length)
    else none
  | _ => none

/-- Read the comparison operator in front of the bound. -/
def readCmp : List Char → Option (Cmp × List Char)
  | '<' :: '=' :: rest => some (.le, rest)
  | '<' :: rest => some (.lt, rest)
  | '>' :: '=' :: rest => some (.ge, rest)
  | '>' :: rest => some (.gt, rest)
  | _ => none

/-- A character that starts a comparison operator. -/
def isCmpChar (c : Char) : Bool := c == '<' || c == '>'

/-- Modelled from the spec: the predicate of a `ThresholdRule`, an expression
over an aggregate.  The host tool reads the threshold strings of the script
(`'rate<0.1'`, `'p(95)<2000'`); its reader is not part of the repository.  A
threshold string is an aggregate name, a comparison and a decimal bound. -/
def parseThreshold (s : String) : Option ThresholdExpr :=
  let cs := s.toList
  let name := cs.takeWhile (fun c => !isCmpChar c)
  match readCmp (cs.dropWhile (fun c => !isCmpChar c)) with
  | none => none
  | some (cmp, rest) =>
    match readDecimal rest with
    | none => none
    | some (m, d) => if name = [] then none else some ⟨String.mk name, cmp, m, d⟩

/-- The bound of a threshold expression as a number. -/
def ThresholdExpr.bound (e : ThresholdExpr) : ℚ := (e.mantissa : ℚ) / 10 ^ e.decimals

/-- Whether `value cmp bound` holds. -/
def Cmp.holds : Cmp → ℚ → ℚ → Bool
  | .lt, v, b => decide (v < b)
  | .le, v, b => decide (v ≤ b)
  | .gt, v, b => decide (v > b)
  | .ge, v, b => decide (v ≥ b)

/-- Result of evaluating a threshold. -/
inductive Verdict where
  | Pass
  | Fail
  deriving DecidableEq, Repr

/-- Modelled from the spec: the Threshold Evaluator on one rule (section 4.4):
the predicate is evaluated against the frozen aggregate of its metric; `none`
when the rule cannot be read or names an aggregate the metric does not have. -/
def evalThreshold (aggregate : String → Option ℚ) (rule : String) : Option Verdict :=
  match parseThreshold rule with
  | none => none
  | some e =>
    match aggregate e.aggregate with
    | none => none
    | some v => some (if e.cmp.holds v e.bound then .Pass else .Fail)

/-- All rules of a list evaluated independently; any one failing fails. -/
def evalRules (aggregate : String → Option ℚ) : List String → Option Verdict
  | [] => some .Pass
  | r :: rest =>
    match evalThreshold aggregate r, evalRules aggregate rest with
    | some .Pass, some v => some v
    | some .Fail, some _ => some .Fail
    | _, _ => none

/-- Modelled from the spec: the Threshold Evaluator on the rules the options
declare for one metric (section 4.4). -/
def evalMetric (o : Options) (metric : String) (aggregate : String → Option ℚ) :
    Option Verdict :=
  match o.thresholds.lookup metric with
  | none => none
  | some rules => evalRules aggregate rules

/-- Modelled from the spec: the aggregate of a rate metric (section 4.3),
`failures / total` over the full run, under the name `rate`. -/
def rateAggregate (failures total : Nat) (name : String) : Option ℚ :=
  if name = "rate" then some ((failures : ℚ) / (total : ℚ)) else none

/-! ## Reading the literals of the script -/

theorem seconds_0s : seconds "0s" = some 0 := by
  simp [seconds, show parseDuration "0s" = some 0 by decide]

theorem seconds_1s : seconds "1s" = some 1 := by
  simp [seconds, show parseDuration "1s" = some 1000 by decide]

theorem seconds_30s : seconds "30s" = some 30 := by
  simp [seconds, show parseDuration "30s" = some 30000 by decide]; norm_num

theorem seconds_1m : seconds "1m" = some 60 := by
  simp [seconds, show parseDuration "1m" = some 60000 by decide]; norm_num

theorem seconds_2m30s : seconds "2m30s" = some 150 := by
  simp [seconds, show parseDuration "2m30s" = some 150000 by decide]; norm_num

theorem executorConfig_constant_load :
    executorConfig constant_load = some (.ConstantConcurrency 50 60) := by
  simp [executorConfig, constant_load, seconds_1m]

theorem resolveStages_ramp_up :
    resolveStages [⟨"30s", 20⟩, ⟨"30s", 50⟩, ⟨"30s", 0⟩]
      = some [⟨30, 20⟩, ⟨30, 50⟩, ⟨30, 0⟩] := by
  simp [resolveStages, resolveStage, seconds_30s]

theorem resolveStages_stress_test :
    resolveStages [⟨"30s", 10⟩, ⟨"1m", 50⟩, ⟨"30s", 0⟩]
      = some [⟨30, 10⟩, ⟨60, 50⟩, ⟨30, 0⟩] := by
  simp [resolveStages, resolveStage, seconds_30s, seconds_1m]

theorem executorConfig_ramp_up :
    executorConfig ramp_up
      = some (.RampingConcurrency 0 [⟨30, 20⟩, ⟨30, 50⟩, ⟨30, 0⟩]) := by
  simp [executorConfig, ramp_up, resolveStages_ramp_up]

theorem executorConfig_stress_test :
    executorConfig stress_test
      = some (.RampingArrivalRate 50 1 [⟨30, 10⟩, ⟨60, 50⟩, ⟨30, 0⟩]) := by
  simp [executorConfig, stress_test, resolveStages_stress_test, seconds_1s]

theorem window_constant_load : window constant_load = some (0, 60) := by
  have h : startOffset constant_load = some 0 := by
    simp [startOffset, constant_load, seconds_0s]
  simp [window, h, scenarioDuration, executorConfig_constant_load, ExecutorConfig.total]

theorem window_ramp_up : window ramp_up = some (60, 150) := by
  have h : startOffset ramp_up = some 60 := by
    simp [startOffset, ramp_up, seconds_1m]
  simp [window, h, scenarioDuration, executorConfig_ramp_up, ExecutorConfig.total,
    stagesDuration]
  norm_num

theorem window_stress_test : window stress_test = some (150, 270) := by
  have h : startOffset stress_test = some 150 := by
    simp [startOffset, stress_test, seconds_2m30s]
  simp [window, h, scenarioDuration, executorConfig_stress_test, ExecutorConfig.total,
    stagesDuration]
  norm_num

theorem parseThreshold_rate : parseThreshold "rate<0.1" = some ⟨"rate", .lt, 1, 1⟩ := by
  decide

/-- The verdict of the `http_req_failed` rule of the script on an aggregate of
`f` failures out of `n` requests. -/
theorem evalMetric_http_req_failed (f n : Nat) :
    evalMetric options "http_req_failed" (rateAggregate f n)
      = some (if (f : ℚ) / (n : ℚ) < 1 / 10 then .Pass else .Fail) := by
  have hl : options.thresholds.lookup "http_req_failed" = some ["rate<0.1"] := by decide
  simp only [evalMetric, hl, evalRules, evalThreshold, parseThreshold_rate, rateAggregate,
    Cmp.holds, ThresholdExpr.bound]
  have hb : (((1 : ℕ) : ℚ) / 10 ^ 1) = 1 / 10 := by norm_num
  simp only [if_true, hb]
  by_cases h : (f : ℚ) / (n : ℚ) < 1 / 10
  · simp only [h, decide_True, if_true]
  · simp only [h, decide_False, if_false, Bool.false_eq_true]

/-- The rate `f / n` is below one tenth exactly when `10 * f < n`. -/
theorem rate_lt_tenth_iff (f n : Nat) (hn : 0 < n) :
    (f : ℚ) / (n : ℚ) < 1 / 10 ↔ 10 * f < n := by
  have hn0 : (0 : ℚ) < n := by exact_mod_cast hn
  rw [div_lt_div_iff₀ hn0 (by norm_num)]
  constructor
  · intro h
    have : ((10 * f : ℕ) : ℚ) < ((n : ℕ) : ℚ) := by push_cast; linarith
    exact_mod_cast this
  · intro h
    have : ((10 * f : ℕ) : ℚ) < ((n : ℕ) : ℚ) := by exact_mod_cast h
    push_cast at this; linarith

/-- The user id lies in `1..10` for every value of `Math.random()`. -/
theorem userId_range (r : ℚ) (h0 : 0 ≤ r) (h1 : r < 1) : 1 ≤ userId r ∧ userId r ≤ 10 := by
  unfold userId
  have ha : (0 : ℤ) ≤ ⌊r * 10⌋ := Int.floor_nonneg.mpr (by linarith)
  have hb : ⌊r * 10⌋ < (10 : ℤ) := Int.floor_lt.mpr (by push_cast; linarith)
  omega

/-- Every id in `1..10` is requested for some value of `Math.random()`. -/
theorem userId_onto (k : ℤ) (h1 : 1 ≤ k) (h10 : k ≤ 10) :
    ∃ r : ℚ, 0 ≤ r ∧ r < 1 ∧ userId r = k := by
  have hk1 : (1 : ℚ) ≤ (k : ℚ) := by exact_mod_cast h1
  have hk10 : (k : ℚ) ≤ 10 := by exact_mod_cast h10
  refine ⟨((k : ℚ) - 1) / 10, ?_, ?_, ?_⟩
  · apply div_nonneg <;> linarith
  · rw [div_lt_one (by norm_num)]; linarith
  · unfold userId
    have : ((k : ℚ) - 1) / 10 * 10 = ((k - 1 : ℤ) : ℚ) := by push_cast; ring
    rw [this, Int.floor_intCast]; ring

/-! ## The ramping target at stage boundaries -/

/-- The sum of the durations of stages with non-negative durations is
non-negative. -/
theorem stagesDuration_nonneg (l : List Stage) (h : ∀ s ∈ l, 0 ≤ s.duration) :
    0 ≤ stagesDuration l := by
  induction l with
  | nil => simp [stagesDuration]
  | cons a rest ih =>
    have ha : 0 ≤ a.duration := h a (List.mem_cons_self _ _)
    have hr : 0 ≤ stagesDuration rest := ih (fun s hs => h s (List.mem_cons_of_mem _ hs))
    simp only [stagesDuration, List.map_cons, List.sum_cons] at hr ⊢
    linarith

theorem stagesDuration_cons (a : Stage) (l : List Stage) :
    stagesDuration (a :: l) = a.duration + stagesDuration l := by
  simp [stagesDuration]

/-- At the boundary where the remaining stages begin, the ramp has the value
of that boundary, unless the first of them has no duration. -/
theorem rampFrom_start (start prev : ℚ) (l : List Stage)
    (h : ∀ x, l[0]? = some x → 0 < x.duration) :
    rampFrom start prev l start = prev := by
  cases l with
  | nil => rfl
  | cons a rest =>
    have ha : 0 < a.duration := h a (by simp)
    have hlt : start < start + a.duration := by linarith
    simp [rampFrom, hlt]

/-- At the end of stage `k` the ramp is at that stage's target, when no
duration is negative and the stage that follows, if any, has a duration. -/
theorem rampFrom_boundary (l : List Stage) :
    ∀ (start prev : ℚ) (k : ℕ) (s : Stage), (∀ x ∈ l, 0 ≤ x.duration) → l[k]? = some s →
      (∀ x, l[k + 1]? = some x → 0 < x.duration) →
      rampFrom start prev l (start + stagesDuration (l.take (k + 1))) = s.target := by
  induction l with
  | nil => intro start prev k s _ hs; simp at hs
  | cons a rest ih =>
    intro start prev k s hnn hs hnext
    have hrest : ∀ x ∈ rest, 0 ≤ x.duration := fun x hx => hnn x (List.mem_cons_of_mem _ hx)
    have hsum : 0 ≤ stagesDuration (rest.take k) :=
      stagesDuration_nonneg _ (fun x hx => hrest x (List.mem_of_mem_take hx))
    have hnot : ¬ (start + stagesDuration ((a :: rest).take (k + 1)) < start + a.duration) := by
      rw [List.take_succ_cons, stagesDuration_cons]; linarith
    rw [rampFrom, if_neg hnot]
    cases k with
    | zero =>
      have hsa : a = s := by simpa using hs
      subst hsa
      have ht : start + stagesDuration ((a :: rest).take (0 + 1)) = start + a.duration := by
        simp [stagesDuration]
      rw [ht]
      exact rampFrom_start _ _ _ (fun x hx => hnext x (by simpa using hx))
    | succ j =>
      have hs2 : rest[j]? = some s := by simpa using hs
      have ht : start + stagesDuration ((a :: rest).take (j + 1 + 1))
          = (start + a.duration) + stagesDuration (rest.take (j + 1)) := by
        rw [List.take_succ_cons, stagesDuration_cons]; ring
      rw [ht]
      exact ih _ _ j s hrest hs2 (fun x hx => hnext x (by simpa using hx))

/-- With a zero-duration stage two boundaries fall on the same instant and the
jump is already applied there: after `1s -> 5` and `0s -> 7` the target at 1s
is 7, not 5, although the stage check accepts the list. -/
theorem rampFrom_zero_duration_jump :
    rampFrom 0 0 [⟨1, 5⟩, ⟨0, 7⟩] 1 = 7 ∧ validateStages [⟨1, 5⟩, ⟨0, 7⟩] = .ok () := by
  constructor
  · simp [rampFrom]
  · simp [validateStages]; norm_num

/-- A ramping strategy is not yet done at the instant its last stage ends. -/
theorem ramping_not_done_at_total (c : ℚ) (l : List Stage) :
    (ExecutorConfig.RampingConcurrency c l).done
      (ExecutorConfig.RampingConcurrency c l).total = false := by
  simp [ExecutorConfig.done, ExecutorConfig.total]

/-- At 50 starts per second with iterations of 2 seconds, 100 of the first 101
iterations are in flight two seconds in. -/
theorem inFlightAt_peak : inFlightAt 50 1 2 2 101 = 100 := by
  have h : ∀ i ∈ List.range 101,
      decide (startInstant 50 1 i ≤ 2 ∧ (2 : ℚ) < startInstant 50 1 i + 2)
        = decide (0 < i ∧ i ≤ 100) := by
    intro i _
    have h1 : startInstant 50 1 i ≤ 2 ↔ i ≤ 100 := by
      unfold startInstant
      rw [mul_one, div_le_iff₀ (by norm_num)]
      constructor
      · intro h
        have : (i : ℚ) ≤ ((100 : ℕ) : ℚ) := by push_cast; linarith
        exact_mod_cast this
      · intro h; have : (i : ℚ) ≤ (100 : ℕ) := by exact_mod_cast h
        push_cast at this; linarith
    have h2 : (2 : ℚ) < startInstant 50 1 i + 2 ↔ 0 < i := by
      unfold startInstant
      rw [mul_one]
      constructor
      · intro h
        have : (0 : ℚ) < (i : ℚ) / 50 := by linarith
        have : (0 : ℚ) < (i : ℚ) := by
          by_contra hc
          have : (i : ℚ) / 50 ≤ 0 := div_nonpos_of_nonpos_of_nonneg (le_of_not_lt hc) (by norm_num)
          linarith
        exact_mod_cast this
      · intro h
        have : (0 : ℚ) < (i : ℚ) := by exact_mod_cast h
        have : (0 : ℚ) < (i : ℚ) / 50 := div_pos this (by norm_num)
        linarith
    simp only [h1, h2, and_comm]
  unfold inFlightAt
  rw [List.filter_congr h]
  decide

/-! ## Iterations of `stressTestScenario` -/

/-- A `check` call of `stressTestScenario` completes exactly when its last
predicate does not throw; otherwise the iteration ends with its exception. -/
theorem checkCall_stressChecks (r : Response) (rest : List Action) :
    checkCall stressChecks r rest =
      match hasValidData r with
      | some b =>
        .check [ ("status is 200", decide (r.status = 200)),
                 ("response time < 2s", decide (r.duration < 2000)),
                 ("has valid data", b) ] :: rest
      | none => [.throw "has valid data"] := by
  cases h : hasValidData r <;> simp [checkCall, runCheck, stressChecks, h]

/-- The seconds of sleep after the loop of checks: those of the rest of the
body when no predicate throws, none otherwise. -/
theorem minIterationSeconds_forEachCheck (rs : List Response) (rest : List Action) :
    minIterationSeconds (forEachCheck stressChecks rs rest)
      = if rs.all (fun r => (hasValidData r).isSome) = true
        then minIterationSeconds rest else 0 := by
  induction rs with
  | nil => simp [forEachCheck]
  | cons r rs ih =>
    rw [forEachCheck, checkCall_stressChecks]
    cases h : hasValidData r with
    | none => simp [minIterationSeconds, h]
    | some b => simp [minIterationSeconds, ih, h]

/-- An iteration of `stressTestScenario` sleeps its 2 seconds when no
`has valid data` predicate throws, and not at all otherwise. -/
theorem minIterationSeconds_stressTestScenario (env : Env) :
    minIterationSeconds (stressTestScenario env)
      = if stressBatch.all (fun q => (hasValidData (env.http q.1 q.2)).isSome) = true
        then 2 else 0 := by
  have e : ∀ rest, minIterationSeconds (Action.batch stressBatch :: rest)
      = minIterationSeconds rest := fun _ => by simp [minIterationSeconds]
  unfold stressTestScenario
  rw [e, minIterationSeconds_forEachCheck]
  simp [minIterationSeconds, stressBatch]

/-! ## The claims -/

/-- C1: the comment of `constantLoadScenario` promises a random user in the
range 1-100, but `Math.floor(Math.random() * 10) + 1` only takes the values
1..10: the draw 0.99 gives 10, and no draw `r` with `0 ≤ r < 1` gives 11 or 100. -/
theorem userId_misses_range_1_100 :
    userId (99 / 100) = 10 ∧
    (¬ ∃ r : ℚ, 0 ≤ r ∧ r < 1 ∧ userId r = 100) ∧
    (¬ ∃ r : ℚ, 0 ≤ r ∧ r < 1 ∧ userId r = 11) := by
  refine ⟨?_, ?_, ?_⟩
  · unfold userId
    have : ⌊(99 / 100 : ℚ) * 10⌋ = 9 := by
      rw [Int.floor_eq_iff]; norm_num
    rw [this]; rfl
  · rintro ⟨r, h0, h1, h⟩
    have := (userId_range r h0 h1).2
    omega
  · rintro ⟨r, h0, h1, h⟩
    have := (userId_range r h0 h1).2
    omega

/-- C2: the `http_req_failed` threshold `rate<0.1` of the script, with the rate
computed as failures / total, passes for `f` failures out of `n > 0` requests
exactly when `10 * f < n` and fails otherwise; 5 failures out of 40 requests
yield Fail. -/
theorem http_req_failed_threshold (f n : Nat) (hn : 0 < n) :
    (evalMetric options "http_req_failed" (rateAggregate f n) = some .Pass ↔ 10 * f < n) ∧
    (evalMetric options "http_req_failed" (rateAggregate f n) = some .Fail ↔ ¬ 10 * f < n) ∧
    evalMetric options "http_req_failed" (rateAggregate 5 40) = some .Fail := by
  have key := rate_lt_tenth_iff f n hn
  refine ⟨?_, ?_, ?_⟩
  · rw [evalMetric_http_req_failed, ← key]
    by_cases h : (f : ℚ) / (n : ℚ) < 1 / 10 <;> simp [h]
  · rw [evalMetric_http_req_failed, ← key]
    by_cases h : (f : ℚ) / (n : ℚ) < 1 / 10 <;> simp [h]
  · rw [evalMetric_http_req_failed]
    have : ¬ ((5 : ℕ) : ℚ) / ((40 : ℕ) : ℚ) < 1 / 10 := by norm_num
    simp only [this, if_false]

theorem http_req_failed_threshold_witness :
    0 < 40 ∧
    (evalMetric options "http_req_failed" (rateAggregate 3 40) = some .Pass ↔ 10 * 3 < 40) :=
  ⟨by decide, (http_req_failed_threshold 3 40 (by decide)).1⟩

/-- C3: every stage list declared in `options` (there are two, those of
`ramp_up` and `stress_test`) is a valid stage list: its duration strings read,
it is non-empty, every stage has a duration > 0 and a target ≥ 0, and the
check before run start reports no configuration error. -/
theorem declared_stage_lists_valid :
    (options.scenarios.filterMap (fun p => p.2.stages)).length = 2 ∧
    ∀ p ∈ options.scenarios, ∀ lits, p.2.stages = some lits →
      ∃ l, resolveStages lits = some l ∧ l ≠ [] ∧ (∀ s ∈ l, s.Valid) ∧
        validateStages l = .ok () := by
  refine ⟨by decide, ?_⟩
  intro p hp lits hl
  simp only [options, List.mem_cons, List.mem_singleton, List.not_mem_nil, or_false] at hp
  rcases hp with rfl | rfl | rfl
  · simp [constant_load] at hl
  · simp only [ramp_up, Option.some.injEq] at hl
    subst hl
    refine ⟨_, resolveStages_ramp_up, by simp, ?_, ?_⟩
    · intro s hs
      simp only [List.mem_cons, List.mem_singleton, List.not_mem_nil, or_false] at hs
      rcases hs with rfl | rfl | rfl <;> constructor <;> norm_num
    · simp [validateStages]; norm_num
  · simp only [stress_test, Option.some.injEq] at hl
    subst hl
    refine ⟨_, resolveStages_stress_test, by simp, ?_, ?_⟩
    · intro s hs
      simp only [List.mem_cons, List.mem_singleton, List.not_mem_nil, or_false] at hs
      rcases hs with rfl | rfl | rfl <;> constructor <;> norm_num
    · simp [validateStages]; norm_num

theorem declared_stage_lists_valid_witness :
    ("ramp_up", ramp_up) ∈ options.scenarios ∧
    ramp_up.stages = some [⟨"30s", 20⟩, ⟨"30s", 50⟩, ⟨"30s", 0⟩] ∧
    ∃ l, resolveStages [⟨"30s", 20⟩, ⟨"30s", 50⟩, ⟨"30s", 0⟩] = some l ∧ l ≠ [] ∧
      (∀ s ∈ l, s.Valid) ∧ validateStages l = .ok () :=
  ⟨by decide, rfl,
    declared_stage_lists_valid.2 ("ramp_up", ramp_up) (by decide) _ rfl⟩

/-- C5: `options.scenarios` declares exactly three scenarios, `constant_load`
with executor `constant-vus`, `ramp_up` with `ramping-vus` and `stress_test`
with `ramping-arrival-rate`, each resolving to the executor configuration of
its kind; every `exec` names a workload function the script exports, and
distinct scenarios are bound to distinct functions. -/
theorem scenarios_bound_to_exported_workloads :
    options.scenarios.map (fun p => (p.1, p.2.executor, p.2.exec))
      = [ ("constant_load", "constant-vus", "constantLoadScenario"),
          ("ramp_up", "ramping-vus", "rampUpScenario"),
          ("stress_test", "ramping-arrival-rate", "stressTestScenario") ] ∧
    (∃ c d, executorConfig constant_load = some (.ConstantConcurrency c d)) ∧
    (∃ c l, executorConfig ramp_up = some (.RampingConcurrency c l)) ∧
    (∃ c u l, executorConfig stress_test = some (.RampingArrivalRate c u l)) ∧
    options.scenarios.all
      (fun p => (exportedWorkloads.lookup p.2.exec).isSome && exportedNames.contains p.2.exec)
      = true ∧
    exportedWorkloads.lookup constant_load.exec = some constantLoadScenario ∧
    exportedWorkloads.lookup ramp_up.exec = some rampUpScenario ∧
    exportedWorkloads.lookup stress_test.exec = some stressTestScenario ∧
    (options.scenarios.map (fun p => p.1)).Nodup ∧
    (options.scenarios.map (fun p => p.2.executor)).Nodup ∧
    (options.scenarios.map (fun p => p.2.exec)).Nodup ∧
    (∀ env : Env, (exportedWorkloads.map (fun w => (w.2 env).head?)).Nodup) := by
  refine ⟨by decide, ⟨_, _, executorConfig_constant_load⟩, ⟨_, _, executorConfig_ramp_up⟩,
    ⟨_, _, _, executorConfig_stress_test⟩, by decide, rfl, rfl, rfl,
    by decide, by decide, by decide, ?_⟩
  intro env
  simp [exportedWorkloads, constantLoadScenario, rampUpScenario, stressTestScenario]

/-- C7: for every summary value `d`, `handleSummary(d)` returns a map with
exactly the two entries `summary.html`, the output of `htmlReport(d)`, and
`summary.txt`, the output of `textSummary(d, {indent: " ", enableColors: true})`;
the summary object leaves `handleSummary` exactly as the two renderers leave
it, so with renderers that only read it, it is unchanged and both entries are
rendered from `d` itself. -/
theorem handleSummary_two_entries {D R : Type} (htmlReport : D → R × D)
    (textSummary : D → SummaryOptions → R × D) (d : D) :
    (handleSummary htmlReport textSummary d).1
      = [ ("summary.html", (htmlReport d).1),
          ("summary.txt", (textSummary (htmlReport d).2 ⟨" ", true⟩).1) ] ∧
    ((handleSummary htmlReport textSummary d).1.map Prod.fst).Nodup ∧
    (handleSummary htmlReport textSummary d).1.length = 2 ∧
    (handleSummary htmlReport textSummary d).2
      = (textSummary (htmlReport d).2 ⟨" ", true⟩).2 ∧
    ((∀ x, (htmlReport x).2 = x) → (∀ x o, (textSummary x o).2 = x) →
      (handleSummary htmlReport textSummary d).1
        = [ ("summary.html", (htmlReport d).1),
            ("summary.txt", (textSummary d ⟨" ", true⟩).1) ] ∧
      (handleSummary htmlReport textSummary d).2 = d) := by
  refine ⟨rfl, by simp [handleSummary], rfl, rfl, ?_⟩
  intro hh ht
  simp [handleSummary, hh, ht]

theorem handleSummary_two_entries_witness :
    (∀ x : Nat, ((fun n : Nat => (n + 1, n)) x).2 = x) ∧
    (∀ (x : Nat) (o : SummaryOptions),
      ((fun (n : Nat) (o : SummaryOptions) => (n + o.indent.length, n)) x o).2 = x) ∧
    (handleSummary (fun n : Nat => (n + 1, n))
        (fun (n : Nat) (o : SummaryOptions) => (n + o.indent.length, n)) 7).1
      = [("summary.html", 8), ("summary.txt", 8)] ∧
    (handleSummary (fun n : Nat => (n + 1, n))
        (fun (n : Nat) (o : SummaryOptions) => (n + o.indent.length, n)) 7).2 = 7 :=
  ⟨fun _ => rfl, fun _ _ => rfl,
    (handleSummary_two_entries (fun n : Nat => (n + 1, n))
      (fun (n : Nat) (o : SummaryOptions) => (n + o.indent.length, n)) 7).2.2.2.2
      (fun _ => rfl) (fun _ _ => rfl)⟩

/-- C8: in `stress_test` the peak stage target is 50 iteration starts per
`timeUnit` of one second and `preAllocatedVUs` is 50 with no `maxVUs` written;
every `stressTestScenario` iteration in which no check predicate throws (each
of the three responses has a JSON body that is not `null`) reaches its
`sleep(2)` and lasts at least 2 seconds, so sustaining the peak rate with such
iterations needs 50 * 2 = 100 iterations in flight (as many as are in flight
two seconds into an even pace of 50 starts per second), more than the 50
pre-allocated. -/
theorem stress_test_peak_exceeds_preallocated (env : Env)
    (h : ∀ q ∈ stressBatch, (hasValidData (env.http q.1 q.2)).isSome = true) :
    stress_test.preAllocatedVUs = some 50 ∧ stress_test.maxVUs = none ∧
    ∃ pre unit stages,
      executorConfig stress_test = some (.RampingArrivalRate pre unit stages) ∧
      pre = 50 ∧ unit = 1 ∧ peakTarget stages = 50 ∧
      (stressTestScenario env).getLast? = some (.sleep 2) ∧
      minIterationSeconds (stressTestScenario env) = 2 ∧
      inFlight (peakTarget stages) unit (minIterationSeconds (stressTestScenario env)) = 100 ∧
      pre < inFlight (peakTarget stages) unit (minIterationSeconds (stressTestScenario env)) ∧
      inFlightAt (peakTarget stages) unit (minIterationSeconds (stressTestScenario env)) 2 101
        = 100 := by
  have hp : peakTarget [⟨30, 10⟩, ⟨60, 50⟩, ⟨30, 0⟩] = 50 := by
    simp [peakTarget]; norm_num
  have hall : stressBatch.all (fun q => (hasValidData (env.http q.1 q.2)).isSome) = true := by
    rw [List.all_eq_true]; exact h
  have hm : minIterationSeconds (stressTestScenario env) = 2 := by
    rw [minIterationSeconds_stressTestScenario, if_pos hall]
  have hl : (stressTestScenario env).getLast? = some (.sleep 2) := by
    have h1 := h ("GET", BASE_URL ++ "/users/1") (by simp [stressBatch])
    have h2 := h ("GET", BASE_URL ++ "/posts/1") (by simp [stressBatch])
    have h3 := h ("GET", BASE_URL ++ "/comments?postId=1") (by simp [stressBatch])
    obtain ⟨b1, e1⟩ := Option.isSome_iff_exists.mp h1
    obtain ⟨b2, e2⟩ := Option.isSome_iff_exists.mp h2
    obtain ⟨b3, e3⟩ := Option.isSome_iff_exists.mp h3
    simp only at e1 e2 e3
    simp [stressTestScenario, stressBatch, forEachCheck, checkCall_stressChecks, e1, e2, e3]
  refine ⟨rfl, rfl, _, _, _, executorConfig_stress_test, rfl, rfl, hp, hl, hm, ?_, ?_, ?_⟩
  · rw [hp, hm]; norm_num [inFlight]
  · rw [hp, hm]; norm_num [inFlight]
  · rw [hp, hm]; exact inFlightAt_peak

theorem stress_test_peak_exceeds_preallocated_witness :
    (∀ q ∈ stressBatch,
      (hasValidData ((⟨0, fun _ _ => ⟨200, 100, some (.object false true)⟩⟩ : Env).http
        q.1 q.2)).isSome = true) ∧
    minIterationSeconds
      (stressTestScenario ⟨0, fun _ _ => ⟨200, 100, some (.object false true)⟩⟩) = 2 := by
  have h : ∀ q ∈ stressBatch,
      (hasValidData ((⟨0, fun _ _ => ⟨200, 100, some (.object false true)⟩⟩ : Env).http
        q.1 q.2)).isSome = true := fun _ _ => rfl
  obtain ⟨_, _, _, _, _, _, _, _, _, _, hm, _⟩ :=
    stress_test_peak_exceeds_preallocated
      ⟨0, fun _ _ => ⟨200, 100, some (.object false true)⟩⟩ h
  exact ⟨h, hm⟩

/-- An iteration of `stressTestScenario` whose requests fail (status 0, null
body, so that `r.json()` throws) ends with the exception of `has valid data`
on the first response: it never reaches `sleep(2)` and is not bound to last
2 seconds, so the demand computed from its sleep is 0, not above 50. -/
theorem stress_iteration_throws_before_sleep :
    stressTestScenario ⟨0, fun _ _ => ⟨0, 5, none⟩⟩
      = [.batch stressBatch, .throw "has valid data"] ∧
    Action.sleep 2 ∉ stressTestScenario ⟨0, fun _ _ => ⟨0, 5, none⟩⟩ ∧
    minIterationSeconds (stressTestScenario ⟨0, fun _ _ => ⟨0, 5, none⟩⟩) = 0 ∧
    ¬ ((50 : ℚ) < inFlight 50 1
        (minIterationSeconds (stressTestScenario ⟨0, fun _ _ => ⟨0, 5, none⟩⟩))) := by
  have ht : stressTestScenario ⟨0, fun _ _ => ⟨0, 5, none⟩⟩
      = [.batch stressBatch, .throw "has valid data"] := by
    simp [stressTestScenario, stressBatch, forEachCheck, checkCall_stressChecks, hasValidData]
  refine ⟨ht, ?_, ?_, ?_⟩
  · rw [ht]; simp
  · rw [ht]; simp [minIterationSeconds]
  · rw [ht]; simp [minIterationSeconds, inFlight]

/-- C9: the three scenarios run back to back: `ramp_up` starts where
`constant_load` ends (60 = 0 + 60), `stress_test` where `ramp_up` ends
(150 = 60 + 90); the windows are [0,60), [60,150) and [150,270), no instant
lies in two of them, every instant of [0,270) lies in one, and the timeline
ends at 270 seconds. -/
theorem scenarios_back_to_back (t : ℚ) :
    startOffset constant_load = some 0 ∧ scenarioDuration constant_load = some 60 ∧
    startOffset ramp_up = some (0 + 60) ∧ scenarioDuration ramp_up = some 90 ∧
    startOffset stress_test = some (60 + 90) ∧ scenarioDuration stress_test = some 120 ∧
    window constant_load = some (0, 60) ∧ window ramp_up = some (60, 150) ∧
    window stress_test = some (150, 270) ∧
    (activeAt constant_load t && activeAt ramp_up t) = false ∧
    (activeAt constant_load t && activeAt stress_test t) = false ∧
    (activeAt ramp_up t && activeAt stress_test t) = false ∧
    ((activeAt constant_load t || activeAt ramp_up t || activeAt stress_test t) = true
      ↔ 0 ≤ t ∧ t < 270) ∧
    timelineEnd options.scenarios = some 270 := by
  have s1 : startOffset constant_load = some 0 := by
    simp [startOffset, constant_load, seconds_0s]
  have s2 : startOffset ramp_up = some (0 + 60) := by
    simp [startOffset, ramp_up, seconds_1m]
  have s3 : startOffset stress_test = some (60 + 90) := by
    simp [startOffset, stress_test, seconds_2m30s]; norm_num
  have d1 : scenarioDuration constant_load = some 60 := by
    simp [scenarioDuration, executorConfig_constant_load, ExecutorConfig.total]
  have d2 : scenarioDuration ramp_up = some 90 := by
    simp [scenarioDuration, executorConfig_ramp_up, ExecutorConfig.total, stagesDuration]
    norm_num
  have d3 : scenarioDuration stress_test = some 120 := by
    simp [scenarioDuration, executorConfig_stress_test, ExecutorConfig.total, stagesDuration]
    norm_num
  refine ⟨s1, d1, s2, d2, s3, d3, window_constant_load, window_ramp_up, window_stress_test,
    ?_, ?_, ?_, ?_, ?_⟩
  · simp only [activeAt, window_constant_load, window_ramp_up, Bool.and_eq_false_imp,
      decide_eq_true_eq, decide_eq_false_iff_not]
    intro h1 h2; linarith [h1.2, h2.1]
  · simp only [activeAt, window_constant_load, window_stress_test, Bool.and_eq_false_imp,
      decide_eq_true_eq, decide_eq_false_iff_not]
    intro h1 h2; linarith [h1.2, h2.1]
  · simp only [activeAt, window_ramp_up, window_stress_test, Bool.and_eq_false_imp,
      decide_eq_true_eq, decide_eq_false_iff_not]
    intro h1 h2; linarith [h1.2, h2.1]
  · simp only [activeAt, window_constant_load, window_ramp_up, window_stress_test,
      Bool.or_eq_true, decide_eq_true_eq]
    constructor
    · rintro ((⟨h1, h2⟩ | ⟨h1, h2⟩) | ⟨h1, h2⟩) <;> constructor <;> linarith
    · rintro ⟨h1, h2⟩
      by_cases ha : t < 60
      · exact Or.inl (Or.inl ⟨h1, ha⟩)
      · by_cases hb : t < 150
        · exact Or.inl (Or.inr ⟨le_of_not_lt ha, hb⟩)
        · exact Or.inr ⟨le_of_not_lt hb, h2⟩
  · simp [timelineEnd, options, window_constant_load, window_ramp_up, window_stress_test]
    norm_num

/-- C4: for every stage sequence without a negative duration, the
interpolated ramping target at the end of stage `k`, the instant
`d_1 + ... + d_k`, is exactly the target of stage `k` whenever the stage that
follows, if there is one, has a duration greater than zero, for ramping
concurrency and for ramping arrival rate alike (so at every boundary of a
sequence whose durations are all positive); in the script, `ramp_up` is at 20,
50 and 0 after 30s, 60s and 90s, and `stress_test` at 10, 50 and 0 after 30s,
90s and 120s. -/
theorem ramping_target_exact_at_boundaries :
    (∀ (startCount : ℚ) (stages : List Stage) (k : ℕ) (s : Stage),
      (∀ x ∈ stages, 0 ≤ x.duration) → stages[k]? = some s →
      (∀ x, stages[k + 1]? = some x → 0 < x.duration) →
      (ExecutorConfig.RampingConcurrency startCount stages).target
        (stagesDuration (stages.take (k + 1))) = s.target) ∧
    (∀ (pre unit : ℚ) (stages : List Stage) (k : ℕ) (s : Stage),
      (∀ x ∈ stages, 0 ≤ x.duration) → stages[k]? = some s →
      (∀ x, stages[k + 1]? = some x → 0 < x.duration) →
      (ExecutorConfig.RampingArrivalRate pre unit stages).target
        (stagesDuration (stages.take (k + 1))) = s.target) ∧
    (∃ cfg, executorConfig ramp_up = some cfg ∧
      cfg.target 30 = 20 ∧ cfg.target 60 = 50 ∧ cfg.target 90 = 0) ∧
    (∃ cfg, executorConfig stress_test = some cfg ∧
      cfg.target 30 = 10 ∧ cfg.target 90 = 50 ∧ cfg.target 120 = 0) := by
  refine ⟨?_, ?_, ?_, ?_⟩
  · intro c l k s hv hs hn
    have := rampFrom_boundary l 0 c k s hv hs hn
    simpa [ExecutorConfig.target] using this
  · intro pre u l k s hv hs hn
    have := rampFrom_boundary l 0 0 k s hv hs hn
    simpa [ExecutorConfig.target] using this
  · refine ⟨_, executorConfig_ramp_up, ?_, ?_, ?_⟩ <;>
      norm_num [ExecutorConfig.target, rampFrom]
  · refine ⟨_, executorConfig_stress_test, ?_, ?_, ?_⟩ <;>
      norm_num [ExecutorConfig.target, rampFrom]

theorem ramping_target_exact_at_boundaries_witness :
    (∀ x ∈ [(⟨30, 20⟩ : Stage), ⟨0, 50⟩, ⟨30, 0⟩], 0 ≤ x.duration) ∧
    [(⟨30, 20⟩ : Stage), ⟨0, 50⟩, ⟨30, 0⟩][1]? = some ⟨0, 50⟩ ∧
    (∀ x, [(⟨30, 20⟩ : Stage), ⟨0, 50⟩, ⟨30, 0⟩][1 + 1]? = some x → 0 < x.duration) ∧
    (ExecutorConfig.RampingConcurrency 0 [⟨30, 20⟩, ⟨0, 50⟩, ⟨30, 0⟩]).target
      (stagesDuration ([(⟨30, 20⟩ : Stage), ⟨0, 50⟩, ⟨30, 0⟩].take (1 + 1))) = 50 := by
  have h1 : ∀ x ∈ [(⟨30, 20⟩ : Stage), ⟨0, 50⟩, ⟨30, 0⟩], 0 ≤ x.duration := by
    intro x hx
    simp only [List.mem_cons, List.mem_singleton, List.not_mem_nil, or_false] at hx
    rcases hx with rfl | rfl | rfl <;> norm_num
  have h2 : ∀ x, [(⟨30, 20⟩ : Stage), ⟨0, 50⟩, ⟨30, 0⟩][1 + 1]? = some x → 0 < x.duration := by
    intro x hx
    have : (⟨30, 0⟩ : Stage) = x := by simpa using hx
    subst this; norm_num
  exact ⟨h1, rfl, h2,
    ramping_target_exact_at_boundaries.1 0 [⟨30, 20⟩, ⟨0, 50⟩, ⟨30, 0⟩] 1 ⟨0, 50⟩ h1 rfl h2⟩

/-- The boundary value fails for a stage followed by a zero-duration stage:
in the list `1s -> 5`, `0s -> 7`, which the stage check accepts, the target at
the end of the first stage (1s) is 7, not the 5 of that stage, so the boundary
statement does not hold of every stage sequence. -/
theorem ramping_boundary_fails_before_zero_duration :
    validateStages [⟨1, 5⟩, ⟨0, 7⟩] = .ok () ∧
    [(⟨1, 5⟩ : Stage), ⟨0, 7⟩][0]? = some ⟨1, 5⟩ ∧
    (ExecutorConfig.RampingConcurrency 0 [⟨1, 5⟩, ⟨0, 7⟩]).target
      (stagesDuration ([(⟨1, 5⟩ : Stage), ⟨0, 7⟩].take (0 + 1))) = 7 ∧
    ¬ (∀ (startCount : ℚ) (stages : List Stage) (k : ℕ) (s : Stage),
      stages[k]? = some s →
      (ExecutorConfig.RampingConcurrency startCount stages).target
        (stagesDuration (stages.take (k + 1))) = s.target) := by
  have h7 : (ExecutorConfig.RampingConcurrency 0 [⟨1, 5⟩, ⟨0, 7⟩]).target
      (stagesDuration ([(⟨1, 5⟩ : Stage), ⟨0, 7⟩].take (0 + 1))) = 7 := by
    simp [ExecutorConfig.target, stagesDuration, rampFrom]
  refine ⟨rampFrom_zero_duration_jump.2, rfl, h7, ?_⟩
  intro hall
  have h5 := hall 0 [⟨1, 5⟩, ⟨0, 7⟩] 0 ⟨1, 5⟩ rfl
  rw [h7] at h5
  norm_num at h5

/-- C6: for every executor configuration declared in `options`, `done` is
false at every instant before the sum of its durations and true at every
instant after it; `constant_load` has target 50 and is not done for `t < 60`
and is done exactly for `t ≥ 60`; `ramp_up` is not done for `t < 90` and
`stress_test` not for `t < 120`, and these two are done exactly once `t`
exceeds that sum, not yet at the sum itself. -/
theorem done_never_before_total (t : ℚ) :
    (options.scenarios.map (fun p => (executorConfig p.2).map ExecutorConfig.total))
      = [some 60, some 90, some 120] ∧
    (∀ p ∈ options.scenarios, ∃ cfg, executorConfig p.2 = some cfg ∧
      (t < cfg.total → cfg.done t = false) ∧ (cfg.total < t → cfg.done t = true)) ∧
    (∃ cfg, executorConfig constant_load = some cfg ∧
      (t < 60 → cfg.target t = 50 ∧ cfg.done t = false) ∧ (60 ≤ t → cfg.done t = true) ∧
      (cfg.done t = true ↔ 60 ≤ t)) ∧
    (∃ cfg, executorConfig ramp_up = some cfg ∧
      (t < 90 → cfg.done t = false) ∧ (90 < t → cfg.done t = true) ∧
      (cfg.done t = true ↔ 90 < t)) ∧
    (∃ cfg, executorConfig stress_test = some cfg ∧
      (t < 120 → cfg.done t = false) ∧ (120 < t → cfg.done t = true) ∧
      (cfg.done t = true ↔ 120 < t)) := by
  have h90 : stagesDuration [⟨30, 20⟩, ⟨30, 50⟩, ⟨30, 0⟩] = 90 := by
    norm_num [stagesDuration]
  have h120 : stagesDuration [⟨30, 10⟩, ⟨60, 50⟩, ⟨30, 0⟩] = 120 := by
    norm_num [stagesDuration]
  refine ⟨?_, ?_, ?_, ?_, ?_⟩
  · simp [options, executorConfig_constant_load, executorConfig_ramp_up,
      executorConfig_stress_test, ExecutorConfig.total, h90, h120]
  · intro p hp
    simp only [options, List.mem_cons, List.mem_singleton, List.not_mem_nil, or_false] at hp
    rcases hp with rfl | rfl | rfl
    · refine ⟨_, executorConfig_constant_load, ?_, ?_⟩ <;>
        simp only [ExecutorConfig.total, ExecutorConfig.done, decide_eq_false_iff_not,
          decide_eq_true_eq] <;> intro h <;> linarith
    · refine ⟨_, executorConfig_ramp_up, ?_, ?_⟩ <;>
        simp only [ExecutorConfig.total, ExecutorConfig.done, decide_eq_false_iff_not,
          decide_eq_true_eq] <;> intro h <;> linarith
    · refine ⟨_, executorConfig_stress_test, ?_, ?_⟩ <;>
        simp only [ExecutorConfig.total, ExecutorConfig.done, decide_eq_false_iff_not,
          decide_eq_true_eq] <;> intro h <;> linarith
  · refine ⟨_, executorConfig_constant_load, ?_, ?_, ?_⟩
    · intro h
      refine ⟨rfl, ?_⟩
      simp only [ExecutorConfig.done, decide_eq_false_iff_not]; linarith
    · intro h
      simp only [ExecutorConfig.done, decide_eq_true_eq]; exact h
    · simp only [ExecutorConfig.done, decide_eq_true_eq]
  · refine ⟨_, executorConfig_ramp_up, ?_, ?_, ?_⟩
    · simp only [ExecutorConfig.done, h90, decide_eq_false_iff_not]; intro h; linarith
    · simp only [ExecutorConfig.done, h90, decide_eq_true_eq]; intro h; exact h
    · simp only [ExecutorConfig.done, h90, decide_eq_true_eq]
  · refine ⟨_, executorConfig_stress_test, ?_, ?_, ?_⟩
    · simp only [ExecutorConfig.done, h120, decide_eq_false_iff_not]; intro h; linarith
    · simp only [ExecutorConfig.done, h120, decide_eq_true_eq]; intro h; exact h
    · simp only [ExecutorConfig.done, h120, decide_eq_true_eq]

theorem done_never_before_total_witness :
    (30 : ℚ) < 60 ∧
    ∃ cfg, executorConfig constant_load = some cfg ∧
      cfg.target 30 = 50 ∧ cfg.done 30 = false := by
  obtain ⟨cfg, hc, h1, _⟩ := (done_never_before_total 30).2.2.1
  exact ⟨by norm_num, cfg, hc, h1 (by norm_num)⟩

/-- At the instant the sum of the stage durations has elapsed, `ramp_up` (90s)
and `stress_test` (120s) are not yet done: a ramping strategy is done only when
`t` exceeds the sum, so `done` is not true at every instant at or after it. -/
theorem ramping_not_done_at_the_sum :
    (∃ cfg, executorConfig ramp_up = some cfg ∧ cfg.total = 90 ∧ cfg.done 90 = false) ∧
    (∃ cfg, executorConfig stress_test = some cfg ∧ cfg.total = 120 ∧
      cfg.done 120 = false) ∧
    ¬ (∀ p ∈ options.scenarios, ∃ cfg, executorConfig p.2 = some cfg ∧
        ∀ t : ℚ, cfg.total ≤ t → cfg.done t = true) := by
  have h90 : stagesDuration [⟨30, 20⟩, ⟨30, 50⟩, ⟨30, 0⟩] = 90 := by
    norm_num [stagesDuration]
  have h120 : stagesDuration [⟨30, 10⟩, ⟨60, 50⟩, ⟨30, 0⟩] = 120 := by
    norm_num [stagesDuration]
  refine ⟨⟨_, executorConfig_ramp_up, ?_, ?_⟩, ⟨_, executorConfig_stress_test, ?_, ?_⟩, ?_⟩
  · simp [ExecutorConfig.total, h90]
  · simp [ExecutorConfig.done, h90]
  · simp [ExecutorConfig.total, h120]
  · simp [ExecutorConfig.done, h120]
  · intro hall
    obtain ⟨cfg, hc, hd⟩ := hall ("ramp_up", ramp_up) (by simp [options])
    rw [executorConfig_ramp_up] at hc
    cases hc
    have := hd 90 (by simp [ExecutorConfig.total, h90])
    simp [ExecutorConfig.done, h90] at this

end TestingK6
